import Mathlib

/-! Verification of the content analytics engine (`src/substack_mcp/analysis.py`).

The Python module is embedded shallowly: strings become `String`, Python `float`
arithmetic becomes exact `ℚ` arithmetic, `None` becomes `Option`, and the
module-level wall clock (`datetime.utcnow()`) and the third-party VADER
sentiment analyzer (`_ANALYSER`) become explicit parameters of `analyse_post`,
since the engine only reads them. -/

set_option maxRecDepth 8192

/-- Character class of the token regular expression `[A-Za-z']` from
`_TOKEN_RE`. -/
def isWordChar (c : Char) : Bool :=
  (('A' ≤ c && c ≤ 'Z') || ('a' ≤ c && c ≤ 'z')) || c = '\''

/-- Maximal runs of `isWordChar` characters, i.e. `_TOKEN_RE.finditer` /
`_TOKEN_RE.findall`. The accumulator holds the current run in reverse. -/
def tokenRuns : List Char → List Char → List (List Char)
  | [], acc => if acc = [] then [] else [acc.reverse]
  | c :: cs, acc =>
    if isWordChar c then tokenRuns cs (c :: acc)
    else if acc = [] then tokenRuns cs []
    else acc.reverse :: tokenRuns cs []

/-- `_tokenise`: every regex match, lower-cased. -/
def _tokenise (text : String) : List String :=
  (tokenRuns text.data []).map (fun t => String.mk (t.map Char.toLower))

/-- Maximal runs of characters other than `.`, `!`, `?`, i.e.
`_SENTENCE_RE.findall`. -/
def sentenceRuns : List Char → List Char → List (List Char)
  | [], acc => if acc = [] then [] else [acc.reverse]
  | c :: cs, acc =>
    if c = '.' || c = '!' || c = '?' then
      if acc = [] then sentenceRuns cs [] else acc.reverse :: sentenceRuns cs []
    else sentenceRuns cs (c :: acc)

/-- Python `sentence.strip()` truthiness: the segment has a non-whitespace
character. -/
def stripTruthy (s : List Char) : Bool := s.any (fun c => !c.isWhitespace)

/-- `_sentence_lengths`: token count of every sentence segment whose stripped
form is non-empty. -/
def _sentence_lengths (text : String) : List ℕ :=
  ((sentenceRuns text.data []).filter stripTruthy).map
    (fun seg => (tokenRuns seg []).length)

/-- The `_VOWELS` string of the source. -/
def isVowel (c : Char) : Bool :=
  c = 'a' || c = 'e' || c = 'i' || c = 'o' || c = 'u' || c = 'y'

/-- The character loop of `_count_syllables`: `flag` is
`previous_char_was_vowel`, `n` the running count. -/
def syllableLoop : List Char → Bool → ℕ → ℕ
  | [], _, n => n
  | c :: cs, flag, n =>
    if isVowel c then
      if flag then syllableLoop cs true n else syllableLoop cs true (n + 1)
    else syllableLoop cs false n

/-- `_count_syllables`: lower-case, run the vowel loop, apply the silent-e
decrement, and return `syllables or 1`. -/
def _count_syllables (word : String) : ℕ :=
  let w := word.data.map Char.toLower
  let syllables := syllableLoop w false 0
  let syllables :=
    if w.getLast? = some 'e' && decide (1 < syllables) then syllables - 1
    else syllables
  if syllables = 0 then 1 else syllables

/-- `_flesch_reading_ease` with exact rational arithmetic. -/
def _flesch_reading_ease (word_count sentence_count syllable_count : ℕ) : ℚ :=
  if word_count = 0 ∨ sentence_count = 0 then 0
  else
    let words_per_sentence : ℚ := (word_count : ℚ) / (sentence_count : ℚ)
    let syllables_per_word : ℚ := (syllable_count : ℚ) / (word_count : ℚ)
    206.835 - (1.015 * words_per_sentence) - (84.6 * syllables_per_word)

/-- `_flesch_kincaid_grade` with exact rational arithmetic. -/
def _flesch_kincaid_grade (word_count sentence_count syllable_count : ℕ) : ℚ :=
  if word_count = 0 ∨ sentence_count = 0 then 0
  else
    let words_per_sentence : ℚ := (word_count : ℚ) / (sentence_count : ℚ)
    let syllables_per_word : ℚ := (syllable_count : ℚ) / (word_count : ℚ)
    (0.39 * words_per_sentence) + (11.8 * syllables_per_word) - 15.59

/-- The `_STOPWORDS` set of the source, as a list. -/
def _STOPWORDS : List String :=
  ["a", "about", "an", "and", "are", "as", "at", "be", "but", "by", "for",
   "from", "has", "have", "he", "in", "is", "it", "its", "of", "on", "or",
   "she", "that", "the", "their", "there", "to", "was", "were", "will",
   "with", "you", "your"]

/-- The generator inside `_keywords`:
`token for token in tokens if token not in _STOPWORDS and len(token) > 2`. -/
def survivingTokens (tokens : List String) : List String :=
  tokens.filter (fun t => !decide (t ∈ _STOPWORDS) && decide (2 < t.length))

/-- The distinct elements of a list in first-encounter order: the key order of
a Python `Counter`, which preserves first-insertion order. -/
def firstOccurrences : List String → List String
  | [] => []
  | t :: ts => t :: firstOccurrences (ts.filter (fun u => u ≠ t))
termination_by l => l.length
decreasing_by simpa using Nat.lt_succ_of_le (List.length_filter_le _ _)

/-- The ordering used by `Counter.most_common`: descending count, and since
`most_common` performs a stable descending sort over items held in
first-insertion order, ties are broken by the first-encounter index.  The
stable sort is embedded as a sort by this total relation. -/
def keyRel (tokens : List String) (t u : String) : Prop :=
  (survivingTokens tokens).count u < (survivingTokens tokens).count t ∨
    ((survivingTokens tokens).count t = (survivingTokens tokens).count u ∧
      (firstOccurrences (survivingTokens tokens)).indexOf t ≤
        (firstOccurrences (survivingTokens tokens)).indexOf u)

instance keyRelDecidable (tokens : List String) : DecidableRel (keyRel tokens) :=
  fun _ _ => by unfold keyRel; infer_instance

instance keyRelTotal (tokens : List String) : IsTotal String (keyRel tokens) := by
  constructor
  intro t u
  unfold keyRel
  rcases Nat.lt_trichotomy ((survivingTokens tokens).count t)
      ((survivingTokens tokens).count u) with h | h | h
  · exact Or.inr (Or.inl h)
  · rcases Nat.le_total ((firstOccurrences (survivingTokens tokens)).indexOf t)
        ((firstOccurrences (survivingTokens tokens)).indexOf u) with h' | h'
    · exact Or.inl (Or.inr ⟨h, h'⟩)
    · exact Or.inr (Or.inr ⟨h.symm, h'⟩)
  · exact Or.inl (Or.inl h)

instance keyRelTrans (tokens : List String) : IsTrans String (keyRel tokens) := by
  constructor
  intro t u v htu huv
  unfold keyRel at *
  rcases htu with h1 | ⟨h1, h1'⟩ <;> rcases huv with h2 | ⟨h2, h2'⟩
  · exact Or.inl (h2.trans h1)
  · exact Or.inl (h2 ▸ h1)
  · exact Or.inl (h1 ▸ h2)
  · exact Or.inr ⟨h1.trans h2, h1'.trans h2'⟩

/-- The `KeywordScore` model (`models.py`). -/
structure KeywordScore where
  term : String
  score : ℚ
deriving DecidableEq

/-- `_keywords`: build the counter over surviving tokens; if it is empty
return `[]`; otherwise take the 12 most common items (stable descending sort
by count) and score each one by `count / total`. -/
def _keywords (tokens : List String) (top_n : ℕ := 12) : List KeywordScore :=
  let counter := firstOccurrences (survivingTokens tokens)
  if counter = [] then []
  else
    let total : ℕ := (counter.map (fun t => (survivingTokens tokens).count t)).sum
    let most_common := (counter.insertionSort (keyRel tokens)).take top_n
    most_common.map
      (fun term =>
        { term := term,
          score := ((survivingTokens tokens).count term : ℚ) / (total : ℚ) })

/-- `PostSummary` (`models.py`), restricted to the fields the analytics engine
can observe; timestamps are rationals counting seconds, so that
`(a - b).total_seconds()` is plain subtraction. -/
structure PostSummary where
  id : Option String := none
  title : String := ""
  url : String := ""
  published_at : Option ℚ := none
  author : Option String := none
  excerpt : Option String := none
  tags : List String := []
deriving DecidableEq

/-- `PostContent` (`models.py`). -/
structure PostContent where
  summary : PostSummary
  html : Option String := none
  text : Option String := none
  cover_image : Option String := none
  topics : List String := []
  word_count : Option ℕ := none
  minute_read : Option ℕ := none
deriving DecidableEq

/-- The dictionary returned by `SentimentIntensityAnalyzer.polarity_scores`. -/
structure SentimentScores where
  neg : ℚ
  neu : ℚ
  pos : ℚ
  compound : ℚ
deriving DecidableEq

/-- The third-party `_ANALYSER` singleton: a deterministic map from text to
polarity scores, passed to the engine as a parameter. -/
def Analyzer : Type := String → SentimentScores

/-- `SentimentBreakdown` (`models.py`). -/
structure SentimentBreakdown where
  negative : ℚ
  neutral : ℚ
  positive : ℚ
  compound : ℚ
deriving DecidableEq

/-- The `extra` dictionary literal built by `analyse_post`. -/
structure AnalyticsExtra where
  word_count : ℕ
  sentence_count : ℕ
  syllable_count : ℕ
  generated_at : String
deriving DecidableEq

/-- `ContentAnalytics` (`models.py`). -/
structure ContentAnalytics where
  summary : PostSummary
  sentiment : Option SentimentBreakdown
  keywords : List KeywordScore
  flesch_reading_ease : ℚ
  flesch_kincaid_grade : ℚ
  lexical_diversity : Option ℚ
  average_sentence_length : Option ℚ
  publishing_cadence_days : Option ℚ
  extra : AnalyticsExtra
deriving DecidableEq

/-- Python `sorted(timestamps, reverse=True)` on rationals. -/
def sortDescQ (l : List ℚ) : List ℚ := l.insertionSort (fun a b => b ≤ a)

/-- Body of `_publishing_cadence_days` after the timestamps have been
extracted and sorted. -/
def cadenceOfSorted (timestamps : List ℚ) : Option ℚ :=
  if timestamps.length < 2 then none
  else
    let deltas := (timestamps.zip timestamps.tail).map
      (fun p => (p.1 - p.2) / 86400)
    if deltas = [] then none
    else some (deltas.sum / (deltas.length : ℚ))

/-- `_publishing_cadence_days`: keep the non-null timestamps (a `datetime` is
always truthy), sort them descending, and average the adjacent gaps in days. -/
def _publishing_cadence_days (history : List PostSummary) : Option ℚ :=
  cadenceOfSorted (sortDescQ (history.filterMap (fun s => s.published_at)))

/-- `analyse_post`.  `analyser` stands for the module-level `_ANALYSER` and
`now` for `datetime.utcnow().isoformat()`; both are read-only inputs of the
Python function. -/
def analyse_post (analyser : Analyzer) (now : String) (content : PostContent)
    (history : Option (List PostSummary) := none) : ContentAnalytics :=
  let text := content.text.getD ""
  let tokens := _tokenise text
  let word_count := tokens.length
  let sentence_lengths := _sentence_lengths text
  let sentence_count := if sentence_lengths.length = 0 then 1 else sentence_lengths.length
  let syllable_count := (tokens.map _count_syllables).sum
  let sentiment : Option SentimentBreakdown :=
    if text.data.any (fun c => !c.isWhitespace) then
      let scores := analyser text
      some { negative := scores.neg, neutral := scores.neu,
             positive := scores.pos, compound := scores.compound }
    else none
  let kws := _keywords tokens
  let lexical_diversity : Option ℚ :=
    if word_count ≠ 0 then some ((tokens.dedup.length : ℚ) / (word_count : ℚ))
    else none
  let avg_sentence_length : Option ℚ :=
    if sentence_lengths = [] then none
    else some ((sentence_lengths.sum : ℚ) / (sentence_lengths.length : ℚ))
  let flesch := _flesch_reading_ease word_count sentence_count syllable_count
  let fk_grade := _flesch_kincaid_grade word_count sentence_count syllable_count
  let cadence_days := _publishing_cadence_days (history.getD [])
  { summary := content.summary,
    sentiment := sentiment,
    keywords := kws,
    flesch_reading_ease := flesch,
    flesch_kincaid_grade := fk_grade,
    lexical_diversity := lexical_diversity,
    average_sentence_length := avg_sentence_length,
    publishing_cadence_days := cadence_days,
    extra := { word_count := word_count, sentence_count := sentence_count,
               syllable_count := syllable_count, generated_at := now } }

/-- The spec's reading of the syllable counter: one syllable per vowel whose
immediately preceding character is not a vowel (the first character has a
non-vowel sentinel before it), a silent-e decrement, and a floor of 1. -/
def _count_syllables_spec (word : String) : ℕ :=
  let w := word.data.map Char.toLower
  let raw := ((' ' :: w).zip w).countP (fun q => isVowel q.2 && !isVowel q.1)
  let adjusted := if w.getLast? = some 'e' && decide (1 < raw) then raw - 1 else raw
  max 1 adjusted

/-- Modelled from the spec: the third-party VADER analyzer
(`vaderSentiment.SentimentIntensityAnalyzer`) is not part of this repository.
Per the spec it returns `negative, neutral, positive ∈ [0,1]` and
`compound ∈ [-1,1]`. -/
def VaderLike (a : Analyzer) : Prop :=
  ∀ s : String,
    0 ≤ (a s).neg ∧ (a s).neg ≤ 1 ∧
    0 ≤ (a s).neu ∧ (a s).neu ≤ 1 ∧
    0 ≤ (a s).pos ∧ (a s).pos ≤ 1 ∧
    -1 ≤ (a s).compound ∧ (a s).compound ≤ 1

/-- A trivially neutral analyzer, used to instantiate theorems at concrete
inputs. -/
def constAnalyzer : Analyzer := fun _ => { neg := 0, neu := 0, pos := 0, compound := 0 }

/-- A minimal summary for concrete scenarios. -/
def sampleSummary : PostSummary :=
  { id := some "1", title := "Sample", url := "https://example.substack.com/p/sample" }

/-- The concrete text of the spec's scenario and of `test_analysis.py`. -/
def helloText : String := "Hello world. This is a simple test post for analytics."

/-- The concrete post of the spec's scenario. -/
def helloContent : PostContent :=
  { summary := sampleSummary, html := some "<p>Hello world</p>", text := some helloText }

/-- A post whose text is the empty string. -/
def emptyTextContent : PostContent :=
  { summary := sampleSummary, text := some "" }

/-- C1: for every word count w, sentence count s and syllable count y, the
Flesch Reading Ease function returns 206.835 - 1.015*(w/s) - 84.6*(y/w) and
the Flesch-Kincaid Grade function returns 0.39*(w/s) + 11.8*(y/w) - 15.59,
except that both return exactly 0.0 whenever w = 0 or s = 0. -/
theorem flesch_formulas (w s y : ℕ) :
    (w = 0 ∨ s = 0 →
      _flesch_reading_ease w s y = 0 ∧ _flesch_kincaid_grade w s y = 0) ∧
    (w ≠ 0 → s ≠ 0 →
      _flesch_reading_ease w s y =
        206.835 - 1.015 * ((w : ℚ) / (s : ℚ)) - 84.6 * ((y : ℚ) / (w : ℚ)) ∧
      _flesch_kincaid_grade w s y =
        0.39 * ((w : ℚ) / (s : ℚ)) + 11.8 * ((y : ℚ) / (w : ℚ)) - 15.59) := by
  constructor
  · intro h
    simp [_flesch_reading_ease, _flesch_kincaid_grade, h]
  · intro hw hs
    constructor
    · rw [_flesch_reading_ease, if_neg (by tauto)]
    · rw [_flesch_kincaid_grade, if_neg (by tauto)]

theorem flesch_formulas_witness :
    _flesch_reading_ease 10 2 15 =
      206.835 - 1.015 * ((10 : ℚ) / (2 : ℚ)) - 84.6 * ((15 : ℚ) / (10 : ℚ)) ∧
    _flesch_reading_ease 0 2 15 = 0 := by
  refine ⟨((flesch_formulas 10 2 15).2 (by decide) (by decide)).1, ?_⟩
  exact ((flesch_formulas 0 2 15).1 (Or.inl rfl)).1

theorem mem_firstOccurrences (l : List String) (a : String) :
    a ∈ firstOccurrences l ↔ a ∈ l := by
  induction l using firstOccurrences.induct with
  | case1 => simp [firstOccurrences]
  | case2 t ts ih =>
    rw [firstOccurrences]
    by_cases h : a = t
    · subst h; simp
    · simp only [List.mem_cons, ih, List.mem_filter, decide_eq_true_eq, h,
        or_false, false_or]
      tauto

theorem nodup_firstOccurrences (l : List String) : (firstOccurrences l).Nodup := by
  induction l using firstOccurrences.induct with
  | case1 => simp [firstOccurrences]
  | case2 t ts ih =>
    rw [firstOccurrences]
    refine List.nodup_cons.mpr ⟨?_, ih⟩
    intro hmem
    have := (mem_firstOccurrences _ _).mp hmem
    simp [List.mem_filter] at this

theorem firstOccurrences_eq_nil (l : List String) :
    firstOccurrences l = [] ↔ l = [] := by
  cases l with
  | nil => simp [firstOccurrences]
  | cons t ts => rw [firstOccurrences]; simp

theorem length_filter_ne_add_count (ts : List String) (t : String) :
    (ts.filter (fun u => u ≠ t)).length + ts.count t = ts.length := by
  induction ts with
  | nil => simp
  | cons u ts ih =>
    by_cases h : u = t
    · subst h
      rw [List.filter_cons, if_neg (by simp), List.count_cons_self]
      simp only [List.length_cons]
      omega
    · rw [List.filter_cons, if_pos (by simpa using h),
        List.count_cons_of_ne (Ne.symm h)]
      simp only [List.length_cons]
      omega

theorem sum_counts_firstOccurrences (l : List String) :
    ((firstOccurrences l).map (fun t => l.count t)).sum = l.length := by
  induction l using firstOccurrences.induct with
  | case1 => simp [firstOccurrences]
  | case2 t ts ih =>
    rw [firstOccurrences]
    simp only [List.map_cons, List.sum_cons]
    have hmap :
        (firstOccurrences (ts.filter (fun u => u ≠ t))).map
            (fun u => (t :: ts).count u) =
          (firstOccurrences (ts.filter (fun u => u ≠ t))).map
            (fun u => (ts.filter (fun u => u ≠ t)).count u) := by
      apply List.map_congr_left
      intro u hu
      have hu' : u ∈ ts.filter (fun u => u ≠ t) :=
        (mem_firstOccurrences _ _).mp hu
      have hne : u ≠ t := by
        have := List.of_mem_filter hu'
        simpa using this
      rw [List.count_cons_of_ne hne, List.count_filter]
      simp [hne]
    rw [hmap, ih, List.count_cons_self]
    have := length_filter_ne_add_count ts t
    simp only [List.length_cons]
    omega

theorem sum_map_div {α : Type} (l : List α) (f : α → ℚ) (c : ℚ) :
    (l.map (fun x => f x / c)).sum = (l.map f).sum / c := by
  induction l with
  | nil => simp
  | cons x l ih => simp [ih, add_div]

/-- C2: the keyword extractor drops tokens in the stopword set or of length
at most 2; if no tokens survive it returns the empty list; otherwise it
returns at most 12 entries ordered by descending frequency with ties broken
by first-encounter order, and each entry's score is its count divided by the
total number of all surviving tokens. -/
theorem keywords_extraction (tokens : List String) :
    (∀ t, t ∈ survivingTokens tokens ↔
      t ∈ tokens ∧ t ∉ _STOPWORDS ∧ 2 < t.length) ∧
    (survivingTokens tokens = [] → _keywords tokens = []) ∧
    (_keywords tokens).length ≤ 12 ∧
    List.Pairwise (fun a b : KeywordScore =>
        (survivingTokens tokens).count b.term <
            (survivingTokens tokens).count a.term ∨
          ((survivingTokens tokens).count a.term =
              (survivingTokens tokens).count b.term ∧
            (firstOccurrences (survivingTokens tokens)).indexOf a.term <
              (firstOccurrences (survivingTokens tokens)).indexOf b.term))
      (_keywords tokens) ∧
    ∀ k ∈ _keywords tokens,
      k.score = ((survivingTokens tokens).count k.term : ℚ) /
        ((survivingTokens tokens).length : ℚ) := by
  refine ⟨?_, ?_, ?_, ?_, ?_⟩
  · intro t
    simp [survivingTokens, List.mem_filter, and_assoc]
  · intro h
    simp [_keywords, h, firstOccurrences]
  · by_cases hS : firstOccurrences (survivingTokens tokens) = []
    · simp [_keywords, hS]
    · simp only [_keywords, if_neg hS, List.length_map, List.length_take]
      omega
  · by_cases hS : firstOccurrences (survivingTokens tokens) = []
    · simp [_keywords, hS]
    · have hsorted := List.sorted_insertionSort (keyRel tokens)
        (firstOccurrences (survivingTokens tokens))
      have hnodup :
          (List.insertionSort (keyRel tokens)
            (firstOccurrences (survivingTokens tokens))).Nodup :=
        ((List.perm_insertionSort _ _).nodup_iff).mpr (nodup_firstOccurrences _)
      have hpw := List.Pairwise.and hsorted hnodup
      have hstrict : List.Pairwise (fun t u : String =>
          (survivingTokens tokens).count u < (survivingTokens tokens).count t ∨
            ((survivingTokens tokens).count t = (survivingTokens tokens).count u ∧
              (firstOccurrences (survivingTokens tokens)).indexOf t <
                (firstOccurrences (survivingTokens tokens)).indexOf u))
          (List.insertionSort (keyRel tokens)
            (firstOccurrences (survivingTokens tokens))) := by
        refine List.Pairwise.imp_of_mem ?_ hpw
        intro a b ha hb hab
        obtain ⟨hr, hne⟩ := hab
        unfold keyRel at hr
        rcases hr with h | ⟨hcnt, hidx⟩
        · exact Or.inl h
        · refine Or.inr ⟨hcnt, lt_of_le_of_ne hidx ?_⟩
          intro heq
          exact hne ((List.indexOf_inj ((List.mem_insertionSort _).mp ha)
            ((List.mem_insertionSort _).mp hb)).mp heq)
      simp only [_keywords, if_neg hS]
      rw [List.pairwise_map]
      exact (hstrict.sublist (List.take_sublist _ _)).imp (fun h => h)
  · intro k hk
    by_cases hS : firstOccurrences (survivingTokens tokens) = []
    · simp [_keywords, hS] at hk
    · simp only [_keywords, if_neg hS] at hk
      obtain ⟨t, _, rfl⟩ := List.mem_map.mp hk
      show ((survivingTokens tokens).count t : ℚ) /
          (((firstOccurrences (survivingTokens tokens)).map
            (fun t => (survivingTokens tokens).count t)).sum : ℚ) = _
      rw [sum_counts_firstOccurrences]

theorem keywords_score_sum_core (tokens : List String) :
    ((_keywords tokens).map KeywordScore.score).sum ≤ 1 ∧
    (((_keywords tokens).map KeywordScore.score).sum = 1 ↔
      (survivingTokens tokens ≠ [] ∧
        (firstOccurrences (survivingTokens tokens)).length ≤ 12)) := by
  by_cases hS : survivingTokens tokens = []
  · have hFO := (firstOccurrences_eq_nil _).mpr hS
    have hk : _keywords tokens = [] := by simp [_keywords, hFO]
    rw [hk]
    constructor
    · simp
    · simp [hS]
  · have hFO : firstOccurrences (survivingTokens tokens) ≠ [] :=
      fun h => hS ((firstOccurrences_eq_nil _).mp h)
    have hkeys : ((_keywords tokens).map KeywordScore.score).sum =
        (((((firstOccurrences (survivingTokens tokens)).insertionSort
              (keyRel tokens)).take 12).map
            (fun t => (survivingTokens tokens).count t)).sum : ℚ) /
          ((survivingTokens tokens).length : ℚ) := by
      simp only [_keywords, if_neg hFO]
      rw [List.map_map]
      rw [show (KeywordScore.score ∘ fun term =>
          ({ term := term,
             score := ((survivingTokens tokens).count term : ℚ) /
               ((((firstOccurrences (survivingTokens tokens)).map
                   (fun t => (survivingTokens tokens).count t)).sum : ℕ) : ℚ) } :
            KeywordScore)) =
          fun t => ((survivingTokens tokens).count t : ℚ) /
            ((((firstOccurrences (survivingTokens tokens)).map
                (fun t => (survivingTokens tokens).count t)).sum : ℕ) : ℚ) from rfl]
      rw [sum_map_div, sum_counts_firstOccurrences]
      rw [Nat.cast_list_sum, List.map_map]
      rfl
    rw [hkeys]
    have hlenpos : 0 < (survivingTokens tokens).length :=
      List.length_pos_of_ne_nil hS
    have hLsum :
        (((firstOccurrences (survivingTokens tokens)).insertionSort
            (keyRel tokens)).map (fun t => (survivingTokens tokens).count t)).sum =
          (survivingTokens tokens).length := by
      have hperm := List.perm_insertionSort (keyRel tokens)
        (firstOccurrences (survivingTokens tokens))
      rw [(hperm.map (fun t => (survivingTokens tokens).count t)).sum_eq,
        sum_counts_firstOccurrences]
    have hAB :
        ((((firstOccurrences (survivingTokens tokens)).insertionSort
            (keyRel tokens)).take 12).map
          (fun t => (survivingTokens tokens).count t)).sum +
        ((((firstOccurrences (survivingTokens tokens)).insertionSort
            (keyRel tokens)).drop 12).map
          (fun t => (survivingTokens tokens).count t)).sum =
          (survivingTokens tokens).length := by
      rw [← List.sum_append, ← List.map_append, List.take_append_drop, hLsum]
    constructor
    · rw [div_le_one (by exact_mod_cast hlenpos)]
      exact_mod_cast Nat.le.intro hAB
    · rw [div_eq_one_iff_eq (by exact_mod_cast hlenpos.ne'), Nat.cast_inj]
      constructor
      · intro hEq
        refine ⟨hS, ?_⟩
        have hB0 :
            ((((firstOccurrences (survivingTokens tokens)).insertionSort
                (keyRel tokens)).drop 12).map
              (fun t => (survivingTokens tokens).count t)).sum = 0 := by omega
        have hdropnil :
            ((firstOccurrences (survivingTokens tokens)).insertionSort
              (keyRel tokens)).drop 12 = [] := by
          by_contra hne
          obtain ⟨t, ht⟩ := List.exists_mem_of_ne_nil _ hne
          have htFO : t ∈ firstOccurrences (survivingTokens tokens) :=
            (List.mem_insertionSort _).mp ((List.drop_sublist 12 _).subset ht)
          have hpos : 0 < (survivingTokens tokens).count t :=
            List.count_pos_iff.mpr ((mem_firstOccurrences _ _).mp htFO)
          have hzero := List.sum_eq_zero_iff.mp hB0
            ((survivingTokens tokens).count t) (List.mem_map_of_mem _ ht)
          omega
        have hlen := List.drop_eq_nil_iff.mp hdropnil
        rw [List.length_insertionSort] at hlen
        exact hlen
      · rintro ⟨_, hle⟩
        have hlenL : ((firstOccurrences (survivingTokens tokens)).insertionSort
            (keyRel tokens)).length ≤ 12 := by
          rw [List.length_insertionSort]; exact hle
        rw [List.take_of_length_le hlenL]
        exact hLsum

/-- C7: the scores of the returned keyword list sum to at most 1; and the sum
is exactly 1 iff at least one token survives the filter and there are at most
12 distinct qualifying terms (with no surviving tokens the list is empty and
the sum is 0, not 1). -/
theorem keyword_scores_sum_bound (text : String) :
    ((_keywords (_tokenise text)).map KeywordScore.score).sum ≤ 1 ∧
    (((_keywords (_tokenise text)).map KeywordScore.score).sum = 1 ↔
      (survivingTokens (_tokenise text) ≠ [] ∧
        (firstOccurrences (survivingTokens (_tokenise text))).length ≤ 12)) :=
  keywords_score_sum_core (_tokenise text)

theorem keyword_scores_sum_bound_witness :
    ((_keywords (_tokenise "cat cat dog")).map KeywordScore.score).sum = 1 := by
  have e1 : survivingTokens (_tokenise "cat cat dog") = ["cat", "cat", "dog"] := by
    decide
  refine (keyword_scores_sum_bound "cat cat dog").2.mpr ⟨?_, ?_⟩
  · rw [e1]; decide
  · rw [e1]; simp [firstOccurrences, List.filter_cons]

/-- C7 counterexample: for the input text "the" nothing survives the filter,
so there are at most 12 distinct qualifying terms and yet the scores sum to 0,
refuting the claimed "if and only if". -/
theorem keyword_scores_sum_iff_cex :
    (firstOccurrences (survivingTokens (_tokenise "the"))).length ≤ 12 ∧
    ((_keywords (_tokenise "the")).map KeywordScore.score).sum = 0 ∧
    ¬ ((_keywords (_tokenise "the")).map KeywordScore.score).sum = 1 := by
  have e1 : survivingTokens (_tokenise "the") = [] := by decide
  have hFO : firstOccurrences (survivingTokens (_tokenise "the")) = [] :=
    (firstOccurrences_eq_nil _).mpr e1
  have hk : _keywords (_tokenise "the") = [] := by simp [_keywords, hFO]
  rw [hFO, hk]
  norm_num

theorem keywords_extraction_witness :
    "cat" ∈ survivingTokens ["cat", "cat"] ∧
    _keywords ["the"] = [] ∧
    (_keywords ["cat", "cat"]).length ≤ 12 ∧
    ∃ k ∈ _keywords ["cat", "cat"],
      k.score = ((survivingTokens ["cat", "cat"]).count k.term : ℚ) /
        ((survivingTokens ["cat", "cat"]).length : ℚ) := by
  have e1 : survivingTokens ["cat", "cat"] = ["cat", "cat"] := by decide
  have e2 : firstOccurrences (survivingTokens ["cat", "cat"]) = ["cat"] := by
    rw [e1]; simp [firstOccurrences, List.filter_cons]
  have hne : _keywords ["cat", "cat"] ≠ [] := by
    simp [_keywords, e2, List.insertionSort, List.orderedInsert]
  obtain ⟨k, hk⟩ := List.exists_mem_of_ne_nil _ hne
  refine ⟨((keywords_extraction ["cat", "cat"]).1 "cat").mpr
      ⟨by decide, by decide, by decide⟩,
    (keywords_extraction ["the"]).2.1 (by decide),
    (keywords_extraction ["cat", "cat"]).2.2.1,
    k, hk, (keywords_extraction ["cat", "cat"]).2.2.2.2 k hk⟩

theorem syllableLoop_zip (cs : List Char) : ∀ (p : Char) (n : ℕ),
    syllableLoop cs (isVowel p) n =
      n + ((p :: cs).zip cs).countP (fun q => isVowel q.2 && !isVowel q.1) := by
  induction cs with
  | nil => intro p n; simp [syllableLoop]
  | cons c cs ih =>
    intro p n
    rw [show (p :: c :: cs).zip (c :: cs) = (p, c) :: ((c :: cs).zip cs) from rfl,
      List.countP_cons]
    cases hc : isVowel c with
    | true =>
      cases hp : isVowel p with
      | true =>
        have ihc := ih c n
        rw [hc] at ihc
        rw [show syllableLoop (c :: cs) true n = syllableLoop cs true n from by
          simp [syllableLoop, hc], ihc,
          if_neg (show ¬((true && !true) = true) from by decide)]
        omega
      | false =>
        have ihc := ih c (n + 1)
        rw [hc] at ihc
        rw [show syllableLoop (c :: cs) false n = syllableLoop cs true (n + 1) from by
          simp [syllableLoop, hc], ihc,
          if_pos (show (true && !false) = true from by decide)]
        omega
    | false =>
      have ihc := ih c n
      rw [hc] at ihc
      rw [show syllableLoop (c :: cs) (isVowel p) n = syllableLoop cs false n from by
        simp [syllableLoop, hc], ihc,
        if_neg (show ¬((false && !isVowel p) = true) from by simp)]
      omega

theorem ite_zero_eq_max_one (a : ℕ) : (if a = 0 then 1 else a) = max 1 a := by
  cases a with
  | zero => simp
  | succ n => simp [Nat.max_def]

theorem count_syllables_eq_spec (word : String) :
    _count_syllables word = _count_syllables_spec word := by
  have h := syllableLoop_zip (word.data.map Char.toLower) ' ' 0
  rw [show isVowel ' ' = false from rfl] at h
  simp only [Nat.zero_add] at h
  simp only [_count_syllables, _count_syllables_spec, h]
  rw [ite_zero_eq_max_one]

theorem one_le_count_syllables (word : String) : 1 ≤ _count_syllables word := by
  simp only [_count_syllables]
  split <;> split <;> omega

theorem length_le_sum_syllables (l : List String) :
    l.length ≤ (l.map _count_syllables).sum := by
  induction l with
  | nil => simp
  | cons t ts ih =>
    simp only [List.length_cons, List.map_cons, List.sum_cons]
    have h1 := one_le_count_syllables t
    omega

/-- C3: the syllable counter lower-cases its input, counts one syllable per
vowel whose immediately preceding character is not a vowel, subtracts one for
a trailing silent e when the running count exceeds 1, and floors the result
at 1; consequently every text has at least as many syllables as words. -/
theorem syllable_counter_correct :
    (∀ word : String, _count_syllables word = _count_syllables_spec word) ∧
    (∀ word : String, 1 ≤ _count_syllables word) ∧
    (∀ text : String,
      (_tokenise text).length ≤ ((_tokenise text).map _count_syllables).sum) :=
  ⟨count_syllables_eq_spec, one_le_count_syllables,
    fun text => length_le_sum_syllables (_tokenise text)⟩

/-- C4: the sentiment field of the result is absent exactly when the text
(with a null text read as the empty string) contains no non-whitespace
character, i.e. is empty after trimming; otherwise it carries the four
analyzer scores. -/
theorem sentiment_presence (analyser : Analyzer) (now : String)
    (content : PostContent) (history : Option (List PostSummary)) :
    ((analyse_post analyser now content history).sentiment = none ↔
      ∀ c ∈ (content.text.getD "").data, c.isWhitespace) ∧
    ((analyse_post analyser now content history).sentiment = none ∨
      (analyse_post analyser now content history).sentiment =
        some { negative := (analyser (content.text.getD "")).neg,
               neutral := (analyser (content.text.getD "")).neu,
               positive := (analyser (content.text.getD "")).pos,
               compound := (analyser (content.text.getD "")).compound }) := by
  have hsent : (analyse_post analyser now content history).sentiment =
      (if (content.text.getD "").data.any (fun c => !c.isWhitespace) then
        some { negative := (analyser (content.text.getD "")).neg,
               neutral := (analyser (content.text.getD "")).neu,
               positive := (analyser (content.text.getD "")).pos,
               compound := (analyser (content.text.getD "")).compound }
      else none) := rfl
  constructor
  · rw [hsent]
    split
    · rename_i h
      simp only [List.any_eq_true] at h
      obtain ⟨c, hc, hcw⟩ := h
      constructor
      · intro habs
        exact absurd habs (by simp)
      · intro hall
        exact absurd (hall c hc) (by simpa using hcw)
    · rename_i h
      rw [Bool.not_eq_true] at h
      have hall := List.any_eq_false.mp h
      simp only [eq_self_iff_true, true_iff]
      intro c hc
      simpa using hall c hc
  · rw [hsent]
    split
    · exact Or.inr rfl
    · exact Or.inl rfl

theorem sentiment_presence_witness :
    (analyse_post constAnalyzer "t" helloContent none).sentiment =
      some { negative := 0, neutral := 0, positive := 0, compound := 0 } ∧
    (analyse_post constAnalyzer "t" emptyTextContent none).sentiment = none := by
  constructor
  · rcases (sentiment_presence constAnalyzer "t" helloContent none).2 with h0 | h1
    · have hall := (sentiment_presence constAnalyzer "t" helloContent none).1.mp h0
      exact absurd (hall 'H' (by decide)) (by decide)
    · rw [h1]; rfl
  · refine (sentiment_presence constAnalyzer "t" emptyTextContent none).1.mpr ?_
    intro c hc
    rw [show (emptyTextContent.text.getD "") = "" from rfl] at hc
    exact absurd hc (List.not_mem_nil c)

/-- C6 counterexample: for an empty text the literal count of non-empty
sentence segments is 0, yet the `extra` mapping reports the floored value 1,
so `extra` does not store the un-floored literal count. -/
theorem extra_sentence_count_cex :
    (analyse_post constAnalyzer "t" emptyTextContent none).extra.sentence_count = 1 ∧
    (_sentence_lengths "").length = 0 ∧
    (analyse_post constAnalyzer "t" emptyTextContent none).extra.sentence_count ≠
      (_sentence_lengths "").length := by
  exact ⟨rfl, rfl, by decide⟩

/-- C6 (amended): the `extra` mapping stores under `sentence_count` the same
floored value used in ratio denominators, namely the maximum of 1 and the
literal count of non-empty sentence segments; for a zero-sentence text it
reports 1, not 0. -/
theorem extra_sentence_count_floored (analyser : Analyzer) (now : String)
    (content : PostContent) (history : Option (List PostSummary)) :
    (analyse_post analyser now content history).extra.sentence_count =
      max 1 (_sentence_lengths (content.text.getD "")).length := by
  rw [show (analyse_post analyser now content history).extra.sentence_count =
      (if (_sentence_lengths (content.text.getD "")).length = 0 then 1
       else (_sentence_lengths (content.text.getD "")).length) from rfl]
  rw [ite_zero_eq_max_one]

/-- C9: two runs of the engine on identical input agree on every field of the
result except the generation timestamp stored in `extra`. -/
theorem engine_deterministic (analyser : Analyzer) (content : PostContent)
    (history : Option (List PostSummary)) (now₁ now₂ : String) :
    (analyse_post analyser now₁ content history).summary =
      (analyse_post analyser now₂ content history).summary ∧
    (analyse_post analyser now₁ content history).sentiment =
      (analyse_post analyser now₂ content history).sentiment ∧
    (analyse_post analyser now₁ content history).keywords =
      (analyse_post analyser now₂ content history).keywords ∧
    (analyse_post analyser now₁ content history).flesch_reading_ease =
      (analyse_post analyser now₂ content history).flesch_reading_ease ∧
    (analyse_post analyser now₁ content history).flesch_kincaid_grade =
      (analyse_post analyser now₂ content history).flesch_kincaid_grade ∧
    (analyse_post analyser now₁ content history).lexical_diversity =
      (analyse_post analyser now₂ content history).lexical_diversity ∧
    (analyse_post analyser now₁ content history).average_sentence_length =
      (analyse_post analyser now₂ content history).average_sentence_length ∧
    (analyse_post analyser now₁ content history).publishing_cadence_days =
      (analyse_post analyser now₂ content history).publishing_cadence_days ∧
    (analyse_post analyser now₁ content history).extra.word_count =
      (analyse_post analyser now₂ content history).extra.word_count ∧
    (analyse_post analyser now₁ content history).extra.sentence_count =
      (analyse_post analyser now₂ content history).extra.sentence_count ∧
    (analyse_post analyser now₁ content history).extra.syllable_count =
      (analyse_post analyser now₂ content history).extra.syllable_count :=
  ⟨rfl, rfl, rfl, rfl, rfl, rfl, rfl, rfl, rfl, rfl, rfl⟩

/-- C10: the engine reads a `PostContent` only through its `text` and
`summary` fields, and a null `text` is treated exactly like the empty
string. -/
theorem depends_only_on_text_and_summary :
    (∀ (analyser : Analyzer) (now : String) (c₁ c₂ : PostContent)
        (history : Option (List PostSummary)),
      c₁.text = c₂.text → c₁.summary = c₂.summary →
        analyse_post analyser now c₁ history =
          analyse_post analyser now c₂ history) ∧
    (∀ (analyser : Analyzer) (now : String) (c : PostContent)
        (history : Option (List PostSummary)),
      c.text = none →
        analyse_post analyser now c history =
          analyse_post analyser now { c with text := some "" } history) := by
  constructor
  · intro analyser now c₁ c₂ history ht hs
    unfold analyse_post
    rw [ht, hs]
  · intro analyser now c history hc
    unfold analyse_post
    rw [hc]
    rfl

theorem depends_only_on_text_and_summary_witness :
    analyse_post constAnalyzer "t" helloContent none =
      analyse_post constAnalyzer "t"
        { helloContent with html := none, topics := ["x"] } none ∧
    analyse_post constAnalyzer "t"
        { summary := sampleSummary, html := some "<p>x</p>" } none =
      analyse_post constAnalyzer "t"
        { summary := sampleSummary, html := some "<p>x</p>",
          text := some "" } none := by
  constructor
  · exact depends_only_on_text_and_summary.1 constAnalyzer "t" _ _ none rfl rfl
  · exact depends_only_on_text_and_summary.2 constAnalyzer "t"
      { summary := sampleSummary, html := some "<p>x</p>" } none rfl

/-- C5: the cadence estimator keeps the non-null timestamps, returns absent
when fewer than 2 remain, and otherwise returns the arithmetic mean of the
adjacent day-gaps of the descending-sorted timestamps; the result is
invariant under permutation of the history list. -/
theorem cadence_behavior :
    (∀ l : List ℚ, (sortDescQ l).Sorted (fun a b => b ≤ a) ∧ (sortDescQ l).Perm l) ∧
    (∀ h₁ h₂ : List PostSummary, h₁.Perm h₂ →
      _publishing_cadence_days h₁ = _publishing_cadence_days h₂) ∧
    (∀ h : List PostSummary,
      (h.filterMap (fun s => s.published_at)).length < 2 →
        _publishing_cadence_days h = none) ∧
    (∀ h : List PostSummary,
      2 ≤ (h.filterMap (fun s => s.published_at)).length →
        _publishing_cadence_days h =
          some ((((sortDescQ (h.filterMap (fun s => s.published_at))).zip
                (sortDescQ (h.filterMap (fun s => s.published_at))).tail).map
                  (fun p => (p.1 - p.2) / 86400)).sum /
            ((((sortDescQ (h.filterMap (fun s => s.published_at))).zip
                (sortDescQ (h.filterMap (fun s => s.published_at))).tail).map
                  (fun p => (p.1 - p.2) / 86400)).length : ℚ))) := by
  letI htot : IsTotal ℚ (fun a b => b ≤ a) := ⟨fun a b => le_total b a⟩
  letI htrans : IsTrans ℚ (fun a b => b ≤ a) := ⟨fun _ _ _ hab hbc => le_trans hbc hab⟩
  letI hanti : IsAntisymm ℚ (fun a b => b ≤ a) := ⟨fun _ _ hab hba => le_antisymm hba hab⟩
  refine ⟨?_, ?_, ?_, ?_⟩
  · intro l
    exact ⟨List.sorted_insertionSort _ l, List.perm_insertionSort _ l⟩
  · intro h₁ h₂ hp
    unfold _publishing_cadence_days
    congr 1
    have ht : (h₁.filterMap (fun s => s.published_at)).Perm
        (h₂.filterMap (fun s => s.published_at)) := hp.filterMap _
    exact List.eq_of_perm_of_sorted
      ((List.perm_insertionSort _ _).trans
        (ht.trans (List.perm_insertionSort _ _).symm))
      (List.sorted_insertionSort _ _) (List.sorted_insertionSort _ _)
  · intro h hlen
    simp only [_publishing_cadence_days, cadenceOfSorted, sortDescQ,
      List.length_insertionSort]
    rw [if_pos hlen]
  · intro h hlen
    have hL : 2 ≤ (sortDescQ (h.filterMap (fun s => s.published_at))).length := by
      simpa [sortDescQ, List.length_insertionSort] using hlen
    have hlen' : ¬ (sortDescQ (h.filterMap (fun s => s.published_at))).length < 2 :=
      Nat.not_lt.mpr hL
    have hz : ((sortDescQ (h.filterMap (fun s => s.published_at))).zip
        (sortDescQ (h.filterMap (fun s => s.published_at))).tail).map
          (fun p => (p.1 - p.2) / 86400) ≠ [] := by
      intro hnil
      have hl0 : (((sortDescQ (h.filterMap (fun s => s.published_at))).zip
          (sortDescQ (h.filterMap (fun s => s.published_at))).tail).map
            (fun p => (p.1 - p.2) / 86400)).length = 0 := by
        rw [hnil]; rfl
      rw [List.length_map, List.length_zip, List.length_tail] at hl0
      omega
    simp only [_publishing_cadence_days, cadenceOfSorted]
    rw [if_neg hlen', if_neg hz]

theorem cadence_behavior_witness :
    _publishing_cadence_days
        [{ published_at := some (-259200) }, { published_at := some (-604800) }] =
      _publishing_cadence_days
        [{ published_at := some (-604800) }, { published_at := some (-259200) }] ∧
    _publishing_cadence_days [{ published_at := some (-259200) }] = none ∧
    _publishing_cadence_days
        [{ published_at := some (-864000) }, { published_at := some (-259200) },
         { published_at := some (-604800) }] = some (7 / 2) := by
  refine ⟨cadence_behavior.2.1 _ _ (List.Perm.swap _ _ _),
    cadence_behavior.2.2.1 _ (by decide), ?_⟩
  have h3 := cadence_behavior.2.2.2
      [{ published_at := some (-864000) }, { published_at := some (-259200) },
       { published_at := some (-604800) }] (by decide)
  rw [h3]
  norm_num [sortDescQ, List.insertionSort, List.orderedInsert, List.filterMap]

/-- C8 counterexample: the scenario text "Hello world. This is a simple test
post for analytics." contains 10 word tokens, so the engine reports a word
count of 10, not the claimed 11. -/
theorem hello_word_count_cex :
    (analyse_post constAnalyzer "t" helloContent none).extra.word_count = 10 ∧
    (analyse_post constAnalyzer "t" helloContent none).extra.word_count ≠ 11 := by
  exact ⟨rfl, by decide⟩

/-- C8 (amended): for the scenario text the engine reports wordCount = 10 and
sentenceCount = 2, the sentiment is present with a compound score in [-1, 1]
for any VADER-like analyzer, and the lexical diversity equals the number of
distinct tokens divided by 10, which is 1 here since all 10 tokens are
distinct. -/
theorem hello_world_metrics (analyser : Analyzer) (hA : VaderLike analyser)
    (now : String) :
    (analyse_post analyser now helloContent none).extra.word_count = 10 ∧
    (analyse_post analyser now helloContent none).extra.sentence_count = 2 ∧
    (∃ sb, (analyse_post analyser now helloContent none).sentiment = some sb ∧
      -1 ≤ sb.compound ∧ sb.compound ≤ 1) ∧
    (analyse_post analyser now helloContent none).lexical_diversity =
      some (((_tokenise helloText).dedup.length : ℚ) /
        ((_tokenise helloText).length : ℚ)) ∧
    ((_tokenise helloText).dedup.length : ℚ) /
        ((_tokenise helloText).length : ℚ) = 1 := by
  refine ⟨rfl, rfl, ?_, rfl, ?_⟩
  · exact ⟨_, rfl, (hA helloText).2.2.2.2.2.2.1, (hA helloText).2.2.2.2.2.2.2⟩
  · rw [show (_tokenise helloText).dedup.length = 10 from rfl,
      show (_tokenise helloText).length = 10 from rfl]
    norm_num

theorem hello_world_metrics_witness :
    VaderLike constAnalyzer ∧
    (analyse_post constAnalyzer "t" helloContent none).extra.sentence_count = 2 := by
  have hA : VaderLike constAnalyzer := by
    intro s
    norm_num [constAnalyzer]
  exact ⟨hA, (hello_world_metrics constAnalyzer hA "t").2.1⟩
